import Mathlib

/-!
Verification of the signing and packaging build scripts
(`build-scripts/signing.py`, `build-scripts/qchatbuild.py`,
`build-scripts/build.py`, `build-scripts/manifest.py`).

Each Python function relevant to the claims is shallowly embedded as an
executable Lean definition.  External effects (HTTP responses, poll
statuses, wall-clock readings, subprocess failures) are passed in as
explicit streams or lists, and the observable behaviour (value returned
or exception raised, number of requests made, seconds slept, filesystem
state) is returned explicitly.
-/

/-! ## SigningServiceClient: `cd_signer_request` (signing.py lines 46-65)

The Python loop is `for i in range(1, 8)`: attempts are numbered 1..7.
Each attempt issues one HTTP request; a 429 response sleeps `2 ** i`
seconds and continues; any other response is returned at once.  Falling
off the loop (7 consecutive 429s) raises an exception.

`resp j` is the status code the service returns to the j-th request
(1-based).  The result records the returned status (`none` = exception
raised), the number of HTTP requests issued, and the total seconds slept.
-/

structure ReqRun where
  result : Option Nat
  requests : Nat
  slept : Nat
deriving DecidableEq, Repr

def cd_signer_go (resp : Nat → Nat) : Nat → Nat → Nat → Nat → ReqRun
  | 0, _, reqs, slept => ⟨none, reqs, slept⟩
  | fuel + 1, i, reqs, slept =>
    if resp i == 429 then
      cd_signer_go resp fuel (i + 1) (reqs + 1) (slept + 2 ^ i)
    else
      ⟨some (resp i), reqs + 1, slept⟩

def cd_signer_request (resp : Nat → Nat) : ReqRun :=
  cd_signer_go resp 7 1 0 0

/-- Sum of the backoff delays `2 ^ j` for the `m` attempts `i, i+1, ..., i+m-1`. -/
def backoffSum (i : Nat) : Nat → Nat
  | 0 => 0
  | m + 1 => 2 ^ i + backoffSum (i + 1) m

theorem backoffSum_eq_sum (i m : Nat) :
    backoffSum i m = ∑ j ∈ Finset.Ico i (i + m), 2 ^ j := by
  induction m generalizing i with
  | zero => simp [backoffSum]
  | succ m ih =>
    rw [backoffSum, ih]
    rw [show i + (m + 1) = i + 1 + m by omega]
    rw [Finset.sum_eq_sum_Ico_succ_bot (by omega : i < i + 1 + m)]

theorem cd_signer_go_429_run (resp : Nat → Nat) :
    ∀ (m fuel i reqs slept : Nat),
      (∀ j, i ≤ j → j < i + m → resp j = 429) →
      resp (i + m) ≠ 429 →
      m < fuel →
      cd_signer_go resp fuel i reqs slept =
        ⟨some (resp (i + m)), reqs + m + 1, slept + backoffSum i m⟩ := by
  intro m
  induction m with
  | zero =>
    intro fuel i reqs slept _ hne hfuel
    obtain ⟨f, rfl⟩ : ∃ f, fuel = f + 1 := ⟨fuel - 1, by omega⟩
    have : (resp i == 429) = false := by
      simpa using (by simpa using hne : resp (i + 0) ≠ 429)
    simp [cd_signer_go, this, backoffSum]
  | succ m ih =>
    intro fuel i reqs slept h429 hne hfuel
    obtain ⟨f, rfl⟩ : ∃ f, fuel = f + 1 := ⟨fuel - 1, by omega⟩
    have hi : resp i = 429 := h429 i (Nat.le_refl i) (by omega)
    have hcond : (resp i == 429) = true := by simp [hi]
    rw [cd_signer_go, if_pos hcond]
    have := ih f (i + 1) (reqs + 1) (slept + 2 ^ i)
      (fun j h1 h2 => h429 j (by omega) (by omega))
      (by simpa [show i + 1 + m = i + (m + 1) by omega] using hne)
      (by omega)
    rw [this]
    simp [backoffSum, show i + 1 + m = i + (m + 1) by omega]
    omega

theorem cd_signer_go_all429 (resp : Nat → Nat) :
    ∀ (fuel i reqs slept : Nat),
      (∀ j, i ≤ j → j < i + fuel → resp j = 429) →
      cd_signer_go resp fuel i reqs slept = ⟨none, reqs + fuel, slept + backoffSum i fuel⟩ := by
  intro fuel
  induction fuel with
  | zero => intro i reqs slept _; simp [cd_signer_go, backoffSum]
  | succ f ih =>
    intro i reqs slept h429
    have hi : resp i = 429 := h429 i (Nat.le_refl i) (by omega)
    rw [cd_signer_go, if_pos (by simp [hi])]
    rw [ih (i + 1) (reqs + 1) (slept + 2 ^ i) (fun j h1 h2 => h429 j (by omega) (by omega))]
    simp [backoffSum]
    omega

/-- C1 counterexample: a response sequence with exactly 7 leading 429s whose
8th response is 200 is "at most 7 leading 429s followed by a non-429", yet
`cd_signer_request` raises (result `none`) after 7 requests, having slept
2+4+...+128 = 254 seconds; it never returns the 200 response. -/
theorem c1_counterexample :
    cd_signer_request (fun i => if i ≤ 7 then 429 else 200) = ⟨none, 7, 254⟩ ∧
      (cd_signer_request (fun i => if i ≤ 7 then 429 else 200)).result ≠ some 200 := by
  constructor
  · decide
  · decide

/-- C1 (amended): with at most **6** leading 429 responses followed by a
non-429, `cd_signer_request` returns that non-429 response after k+1 requests
and the total time slept is the sum of `2 ^ i` over the 429 attempts i = 1..k;
with 7 consecutive 429s it raises (result `none`) after exactly 7 requests
(no 8th request), having slept the sum of `2 ^ i` for i = 1..7. -/
theorem c1_retry_backoff :
    (∀ (resp : Nat → Nat) (k : Nat), k ≤ 6 →
      (∀ j, 1 ≤ j → j ≤ k → resp j = 429) →
      resp (k + 1) ≠ 429 →
      cd_signer_request resp =
        ⟨some (resp (k + 1)), k + 1, ∑ i ∈ Finset.Icc 1 k, 2 ^ i⟩) ∧
    (∀ resp : Nat → Nat, (∀ j, 1 ≤ j → j ≤ 7 → resp j = 429) →
      cd_signer_request resp = ⟨none, 7, ∑ i ∈ Finset.Icc 1 7, 2 ^ i⟩) := by
  constructor
  · intro resp k hk h429 hne
    have hco : Finset.Ico 1 (1 + k) = Finset.Icc 1 k := by
      ext x; simp [Finset.mem_Ico, Finset.mem_Icc]; omega
    have := cd_signer_go_429_run resp k 7 1 0 0
      (fun j h1 h2 => h429 j h1 (by omega)) (by rw [Nat.add_comm]; exact hne) (by omega)
    rw [cd_signer_request, this, backoffSum_eq_sum, hco]
    simp [Nat.add_comm 1 k]
  · intro resp h429
    have := cd_signer_go_all429 resp 7 1 0 0 (fun j h1 h2 => h429 j h1 (by omega))
    rw [cd_signer_request, this, backoffSum_eq_sum]
    have : Finset.Ico 1 (1 + 7) = Finset.Icc 1 7 := by decide
    simp [this]

/-- Witness for `c1_retry_backoff`: two 429s then a 200 yields the 200 after
3 requests with 2+4 = 6 seconds slept; seven straight 429s yield an
exception after exactly 7 requests and 254 seconds slept. -/
theorem c1_retry_backoff_witness :
    cd_signer_request (fun i => if i ≤ 2 then 429 else 200) =
        ⟨some 200, 3, ∑ i ∈ Finset.Icc 1 2, 2 ^ i⟩ ∧
      cd_signer_request (fun _ => 429) = ⟨none, 7, ∑ i ∈ Finset.Icc 1 7, 2 ^ i⟩ := by
  constructor
  · have := c1_retry_backoff.1 (fun i => if i ≤ 2 then 429 else 200) 2
      (by omega) (fun j h1 h2 => by simp [show j ≤ 2 from h2])
      (by decide)
    simpa using this
  · exact c1_retry_backoff.2 (fun _ => 429) (fun j h1 h2 => rfl)

/-! ## SigningRequestWorkflow poll loop (signing.py lines 171-191)

`cd_sign_file` polls `cd_signer_status_request` in a `while True` loop.
`status i` is the status string returned by the i-th poll (1-based) and
`clock i` is the value of `time.time()` (relative to workflow start, in
seconds) at the deadline check of the i-th iteration; `end_time` is 180
seconds after workflow start.  The loop body:

  match status: "success" -> break; "created"/"processing"/"inProgress"
  -> pass; "failure" -> raise; anything else -> warn and continue;
  then `if time.time() >= end_time: raise timeout`, `time.sleep(2)`.

The embedding uses fuel for the unbounded loop (`none` = fuel ran out)
and records the outcome, the number of status polls made, the total
seconds slept inside the loop, and the number of warnings logged. -/

inductive PollOutcome where
  | success
  | failureErr
  | timeoutErr
deriving DecidableEq, Repr

structure PollRun where
  outcome : PollOutcome
  polls : Nat
  slept : Nat
  warns : Nat
deriving DecidableEq, Repr

/-- A status string that keeps the loop running without a warning. -/
def knownIntermediate (s : String) : Bool :=
  s == "created" || s == "processing" || s == "inProgress"

/-- A status string that is not a terminal state of the poll loop. -/
def nonTerminal (s : String) : Bool :=
  !(s == "success") && !(s == "failure")

def poll_go (status : Nat → String) (clock : Nat → Nat) (endTime : Nat) :
    Nat → Nat → Nat → Nat → Option PollRun
  | 0, _, _, _ => none
  | fuel + 1, i, slept, warns =>
    if status i == "success" then some ⟨.success, i, slept, warns⟩
    else if status i == "failure" then some ⟨.failureErr, i, slept, warns⟩
    else
      let w := if knownIntermediate (status i) then warns else warns + 1
      if endTime ≤ clock i then some ⟨.timeoutErr, i, slept, w⟩
      else poll_go status clock endTime fuel (i + 1) (slept + 2) w

/-- The poll phase of `cd_sign_file`: loop with `max_duration = 180`,
starting at attempt 1.  The boolean records whether the workflow went on
to download and unpack the signed result (it does so exactly when the
loop breaks on `success`; `failure` and timeout raise instead). -/
def cd_sign_file_poll (status : Nat → String) (clock : Nat → Nat) (fuel : Nat) :
    Option (PollRun × Bool) :=
  match poll_go status clock 180 fuel 1 0 0 with
  | none => none
  | some r => some (r, r.outcome == PollOutcome.success)

/-- Number of warnings logged over the `m` polls `i, i+1, ..., i+m-1`
(one per poll whose status is neither terminal nor a known intermediate). -/
def warnCount (status : Nat → String) : Nat → Nat → Nat
  | _, 0 => 0
  | i, m + 1 => (if knownIntermediate (status i) then 0 else 1) + warnCount status (i + 1) m

theorem nonTerminal_beq_false {s : String} (h : nonTerminal s = true) :
    (s == "success") = false ∧ (s == "failure") = false := by
  simp only [nonTerminal, Bool.and_eq_true, Bool.not_eq_true'] at h
  exact h

theorem poll_go_reach_terminal (status : Nat → String) (clock : Nat → Nat) (endTime : Nat) :
    ∀ (m fuel i slept warns : Nat),
      (∀ j, i ≤ j → j < i + m → nonTerminal (status j) = true ∧ clock j < endTime) →
      m < fuel →
      ((status (i + m) = "success" →
        poll_go status clock endTime fuel i slept warns =
          some ⟨.success, i + m, slept + 2 * m, warns + warnCount status i m⟩) ∧
       (status (i + m) = "failure" →
        poll_go status clock endTime fuel i slept warns =
          some ⟨.failureErr, i + m, slept + 2 * m, warns + warnCount status i m⟩)) := by
  intro m
  induction m with
  | zero =>
    intro fuel i slept warns _ hfuel
    obtain ⟨f, rfl⟩ : ∃ f, fuel = f + 1 := ⟨fuel - 1, by omega⟩
    constructor
    · intro hs
      rw [show i + 0 = i by omega] at hs
      simp [poll_go, hs, warnCount]
    · intro hs
      rw [show i + 0 = i by omega] at hs
      simp [poll_go, hs, warnCount]
  | succ m ih =>
    intro fuel i slept warns hpre hfuel
    obtain ⟨f, rfl⟩ : ∃ f, fuel = f + 1 := ⟨fuel - 1, by omega⟩
    obtain ⟨hnt, hclk⟩ := hpre i (Nat.le_refl i) (by omega)
    obtain ⟨hs1, hs2⟩ := nonTerminal_beq_false hnt
    have hrec := ih f (i + 1) (slept + 2)
      (warns + if knownIntermediate (status i) then 0 else 1)
      (fun j h1 h2 => hpre j (by omega) (by omega)) (by omega)
    have heq : i + 1 + m = i + (m + 1) := by omega
    have hw : warns + (if knownIntermediate (status i) then 0 else 1) +
        warnCount status (i + 1) m = warns + warnCount status i (m + 1) := by
      rw [warnCount]; omega
    constructor
    · intro hs
      rw [poll_go, if_neg (by simp [hs1]), if_neg (by simp [hs2]),
        if_neg (by omega : ¬ endTime ≤ clock i)]
      have := hrec.1 (by rw [heq]; exact hs)
      rw [show (if knownIntermediate (status i) then warns else warns + 1) =
          warns + if knownIntermediate (status i) then 0 else 1 by
        cases h : knownIntermediate (status i) <;> simp [h]]
      rw [this, heq, hw]
      congr 2
      omega
    · intro hs
      rw [poll_go, if_neg (by simp [hs1]), if_neg (by simp [hs2]),
        if_neg (by omega : ¬ endTime ≤ clock i)]
      have := hrec.2 (by rw [heq]; exact hs)
      rw [show (if knownIntermediate (status i) then warns else warns + 1) =
          warns + if knownIntermediate (status i) then 0 else 1 by
        cases h : knownIntermediate (status i) <;> simp [h]]
      rw [this, heq, hw]
      congr 2
      omega

theorem poll_go_timeout (status : Nat → String) (clock : Nat → Nat) (endTime : Nat) :
    ∀ (m fuel i slept warns : Nat),
      (∀ j, i ≤ j → j < i + m → nonTerminal (status j) = true ∧ clock j < endTime) →
      nonTerminal (status (i + m)) = true →
      endTime ≤ clock (i + m) →
      m < fuel →
      poll_go status clock endTime fuel i slept warns =
        some ⟨.timeoutErr, i + m, slept + 2 * m, warns + warnCount status i (m + 1)⟩ := by
  intro m
  induction m with
  | zero =>
    intro fuel i slept warns _ hnt hclk hfuel
    obtain ⟨f, rfl⟩ : ∃ f, fuel = f + 1 := ⟨fuel - 1, by omega⟩
    rw [show i + 0 = i by omega] at hnt hclk
    obtain ⟨hs1, hs2⟩ := nonTerminal_beq_false hnt
    rw [poll_go, if_neg (by simp [hs1]), if_neg (by simp [hs2]), if_pos hclk]
    have hw : (if knownIntermediate (status i) then warns else warns + 1) =
        warns + warnCount status i 1 := by
      rw [warnCount, warnCount]
      cases h : knownIntermediate (status i) <;> simp [h]
    simp [hw]
  | succ m ih =>
    intro fuel i slept warns hpre hnt hclk hfuel
    obtain ⟨f, rfl⟩ : ∃ f, fuel = f + 1 := ⟨fuel - 1, by omega⟩
    obtain ⟨hnti, hclki⟩ := hpre i (Nat.le_refl i) (by omega)
    obtain ⟨hs1, hs2⟩ := nonTerminal_beq_false hnti
    rw [poll_go, if_neg (by simp [hs1]), if_neg (by simp [hs2]),
      if_neg (by omega : ¬ endTime ≤ clock i)]
    have heq : i + 1 + m = i + (m + 1) := by omega
    have := ih f (i + 1) (slept + 2)
      (warns + if knownIntermediate (status i) then 0 else 1)
      (fun j h1 h2 => hpre j (by omega) (by omega))
      (by rw [heq]; exact hnt) (by rw [heq]; exact hclk) (by omega)
    rw [show (if knownIntermediate (status i) then warns else warns + 1) =
        warns + if knownIntermediate (status i) then 0 else 1 by
      cases h : knownIntermediate (status i) <;> simp [h]]
    rw [this, heq]
    have hw : warns + (if knownIntermediate (status i) then 0 else 1) +
        warnCount status (i + 1) (m + 1) = warns + warnCount status i (m + 1 + 1) := by
      conv_rhs => rw [warnCount]
      omega
    rw [hw]
    congr 2
    omega

theorem poll_go_timeout_inv (status : Nat → String) (clock : Nat → Nat) (endTime : Nat) :
    ∀ (fuel i slept warns : Nat) (r : PollRun),
      poll_go status clock endTime fuel i slept warns = some r →
      r.outcome = PollOutcome.timeoutErr →
      nonTerminal (status r.polls) = true ∧ endTime ≤ clock r.polls := by
  intro fuel
  induction fuel with
  | zero => intro i slept warns r h _; simp [poll_go] at h
  | succ f ih =>
    intro i slept warns r h hout
    rw [poll_go] at h
    by_cases h1 : (status i == "success") = true
    · rw [if_pos h1] at h
      cases h
      simp at hout
    · rw [if_neg h1] at h
      by_cases h2 : (status i == "failure") = true
      · rw [if_pos h2] at h
        cases h
        simp at hout
      · rw [if_neg h2] at h
        by_cases h3 : endTime ≤ clock i
        · rw [if_pos h3] at h
          cases h
          refine ⟨?_, h3⟩
          simp only [nonTerminal, Bool.and_eq_true, Bool.not_eq_true']
          exact ⟨by simpa using h1, by simpa using h2⟩
        · rw [if_neg h3] at h
          exact ih (i + 1) (slept + 2) _ r h hout

theorem poll_phase_success (status : Nat → String) (clock : Nat → Nat) (fuel k : Nat)
    (hk : 1 ≤ k) (hfuel : k ≤ fuel)
    (hpre : ∀ j, 1 ≤ j → j < k → nonTerminal (status j) = true ∧ clock j < 180)
    (hs : status k = "success") :
    cd_sign_file_poll status clock fuel =
      some (⟨.success, k, 2 * (k - 1), warnCount status 1 (k - 1)⟩, true) := by
  have h := (poll_go_reach_terminal status clock 180 (k - 1) fuel 1 0 0
      (fun j h1 h2 => hpre j h1 (by omega)) (by omega)).1
      (by rw [show 1 + (k - 1) = k by omega]; exact hs)
  rw [show 1 + (k - 1) = k by omega] at h
  simp only [cd_sign_file_poll, h]
  simp

theorem poll_phase_failure (status : Nat → String) (clock : Nat → Nat) (fuel k : Nat)
    (hk : 1 ≤ k) (hfuel : k ≤ fuel)
    (hpre : ∀ j, 1 ≤ j → j < k → nonTerminal (status j) = true ∧ clock j < 180)
    (hs : status k = "failure") :
    cd_sign_file_poll status clock fuel =
      some (⟨.failureErr, k, 2 * (k - 1), warnCount status 1 (k - 1)⟩, false) := by
  have h := (poll_go_reach_terminal status clock 180 (k - 1) fuel 1 0 0
      (fun j h1 h2 => hpre j h1 (by omega)) (by omega)).2
      (by rw [show 1 + (k - 1) = k by omega]; exact hs)
  rw [show 1 + (k - 1) = k by omega] at h
  simp only [cd_sign_file_poll, h]
  simp

theorem poll_phase_timeout (status : Nat → String) (clock : Nat → Nat) (fuel m : Nat)
    (hm : 1 ≤ m) (hfuel : m ≤ fuel)
    (hpre : ∀ j, 1 ≤ j → j < m → nonTerminal (status j) = true ∧ clock j < 180)
    (hnt : nonTerminal (status m) = true) (hclk : 180 ≤ clock m) :
    cd_sign_file_poll status clock fuel =
      some (⟨.timeoutErr, m, 2 * (m - 1), warnCount status 1 m⟩, false) := by
  have h := poll_go_timeout status clock 180 (m - 1) fuel 1 0 0
      (fun j h1 h2 => hpre j h1 (by omega))
      (by rw [show 1 + (m - 1) = m by omega]; exact hnt)
      (by rw [show 1 + (m - 1) = m by omega]; exact hclk) (by omega)
  rw [show 1 + (m - 1) = m by omega, show m - 1 + 1 = m by omega] at h
  simp only [cd_sign_file_poll, h]
  simp

/-- C2: in the signing workflow's poll loop, (a) a poll sequence whose first
terminal status is "success" at poll k within the 180-second deadline exits
the loop successfully and proceeds to fetch the signed result, sleeping
exactly 2 seconds between consecutive polls (total 2*(k-1)), with
unrecognized intermediate statuses only logging a warning while polling
continues; (b) a sequence whose statuses stay non-terminal (known
intermediates or unrecognized strings) until the deadline has elapsed
raises the timeout error at the first poll at or past the deadline, without
fetching. -/
theorem c2_poll_loop (status : Nat → String) (clock : Nat → Nat) (fuel : Nat) :
    (∀ k, 1 ≤ k → k ≤ fuel →
      (∀ j, 1 ≤ j → j < k → nonTerminal (status j) = true ∧ clock j < 180) →
      status k = "success" → clock k ≤ 180 →
      cd_sign_file_poll status clock fuel =
        some (⟨.success, k, 2 * (k - 1), warnCount status 1 (k - 1)⟩, true)) ∧
    (∀ m, 1 ≤ m → m ≤ fuel →
      (∀ j, 1 ≤ j → j < m → nonTerminal (status j) = true ∧ clock j < 180) →
      nonTerminal (status m) = true → 180 ≤ clock m →
      cd_sign_file_poll status clock fuel =
        some (⟨.timeoutErr, m, 2 * (m - 1), warnCount status 1 m⟩, false)) := by
  constructor
  · intro k hk hfuel hpre hs _
    exact poll_phase_success status clock fuel k hk hfuel hpre hs
  · intro m hm hfuel hpre hnt hclk
    exact poll_phase_timeout status clock fuel m hm hfuel hpre hnt hclk

/-- Witness for `c2_poll_loop`: "processing", "STRANGE", then "success" at
poll 3 (all before the deadline) exits successfully with 4 seconds slept and
one warning; "created" for ever with the clock passing 180 at poll 4 times
out at poll 4 with 6 seconds slept. -/
theorem c2_poll_loop_witness :
    cd_sign_file_poll
        (fun i => if i = 1 then "processing" else if i = 2 then "STRANGE" else "success")
        (fun i => 2 * i) 10 =
      some (⟨.success, 3, 4, 1⟩, true) ∧
    cd_sign_file_poll (fun _ => "created") (fun i => 50 * i) 10 =
      some (⟨.timeoutErr, 4, 6, 0⟩, false) := by
  constructor
  · have := (c2_poll_loop
        (fun i => if i = 1 then "processing" else if i = 2 then "STRANGE" else "success")
        (fun i => 2 * i) 10).1 3 (by omega) (by omega)
        (by intro j h1 h2; interval_cases j <;> exact ⟨by decide, by decide⟩)
        (by decide) (by decide)
    simpa using this
  · have := (c2_poll_loop (fun _ => "created") (fun i => 50 * i) 10).2 4
        (by omega) (by omega)
        (by intro j h1 h2; interval_cases j <;> exact ⟨by decide, by decide⟩)
        (by decide) (by decide)
    simpa using this

/-- C3: if a status poll returns "failure" at poll k, before any "success"
was observed, the workflow raises immediately: the loop ends with the
failure outcome after exactly k polls (no further status requests) and the
signed result is never fetched. -/
theorem c3_failure_aborts (status : Nat → String) (clock : Nat → Nat) (fuel k : Nat)
    (hk : 1 ≤ k) (hfuel : k ≤ fuel)
    (hpre : ∀ j, 1 ≤ j → j < k → nonTerminal (status j) = true ∧ clock j < 180)
    (hs : status k = "failure") :
    cd_sign_file_poll status clock fuel =
      some (⟨.failureErr, k, 2 * (k - 1), warnCount status 1 (k - 1)⟩, false) :=
  poll_phase_failure status clock fuel k hk hfuel hpre hs

/-- Witness for `c3_failure_aborts`: "processing" then "failure" at poll 2
aborts at poll 2 with the result never fetched. -/
theorem c3_failure_aborts_witness :
    cd_sign_file_poll (fun i => if i = 1 then "processing" else "failure")
        (fun _ => 0) 10 =
      some (⟨.failureErr, 2, 2, 0⟩, false) := by
  have := c3_failure_aborts (fun i => if i = 1 then "processing" else "failure")
      (fun _ => 0) 10 2 (by omega) (by omega)
      (by intro j h1 h2; interval_cases j; exact ⟨by decide, by decide⟩)
      (by decide)
  simpa using this

/-- C9: the 180-second deadline is checked only after a non-terminal status:
(a) a poll whose status is "success" or "failure" is the terminal outcome
even when the clock is already at or past the deadline at that poll; (b)
whenever the loop ends with the timeout error, the status observed at the
final poll was non-terminal and the clock at that poll was at or past the
deadline. -/
theorem c9_deadline_after_terminal (status : Nat → String) (clock : Nat → Nat) (fuel : Nat) :
    (∀ k, 1 ≤ k → k ≤ fuel →
      (∀ j, 1 ≤ j → j < k → nonTerminal (status j) = true ∧ clock j < 180) →
      180 ≤ clock k →
      (status k = "success" →
        cd_sign_file_poll status clock fuel =
          some (⟨.success, k, 2 * (k - 1), warnCount status 1 (k - 1)⟩, true)) ∧
      (status k = "failure" →
        cd_sign_file_poll status clock fuel =
          some (⟨.failureErr, k, 2 * (k - 1), warnCount status 1 (k - 1)⟩, false))) ∧
    (∀ (r : PollRun) (fetched : Bool),
      cd_sign_file_poll status clock fuel = some (r, fetched) →
      r.outcome = PollOutcome.timeoutErr →
      nonTerminal (status r.polls) = true ∧ 180 ≤ clock r.polls) := by
  constructor
  · intro k hk hfuel hpre _
    exact ⟨fun hs => poll_phase_success status clock fuel k hk hfuel hpre hs,
      fun hs => poll_phase_failure status clock fuel k hk hfuel hpre hs⟩
  · intro r fetched h hout
    rw [cd_sign_file_poll] at h
    cases hpg : poll_go status clock 180 fuel 1 0 0 with
    | none => rw [hpg] at h; simp at h
    | some r0 =>
      rw [hpg] at h
      simp at h
      exact poll_go_timeout_inv status clock 180 fuel 1 0 0 r (by rw [hpg, h.1]) hout

/-- Witness for `c9_deadline_after_terminal`: "success" at the very first
poll with the clock already at 500 seconds still succeeds; a run ending in
the timeout outcome indeed timed out on a non-terminal status at or past
the deadline. -/
theorem c9_deadline_after_terminal_witness :
    cd_sign_file_poll (fun _ => "success") (fun _ => 500) 5 =
        some (⟨.success, 1, 0, 0⟩, true) ∧
      (nonTerminal ((fun _ => "created") 1) = true ∧ 180 ≤ (fun _ => (200 : Nat)) 1) := by
  constructor
  · have := ((c9_deadline_after_terminal (fun _ => "success") (fun _ => 500) 5).1 1
        (by omega) (by omega) (by intro j h1 h2; omega) (by decide)).1 (by decide)
    simpa using this
  · exact (c9_deadline_after_terminal (fun _ => "created") (fun _ => (200 : Nat)) 5).2
      ⟨.timeoutErr, 1, 0, 0⟩ false (by decide) (by decide)

/-! ## Signed-result unpacking (signing.py lines 196-216)

After a successful poll, `cd_sign_file` unzips `signed.zip`, lists the
children of the top-level `Payload` directory, raises unless there is
exactly one child, and then copies the single child over the original
artifact path: `shutil.copytree` when it is a directory, `shutil.copy2`
when it is a file, and an exception for anything else.  The embedding
returns the list of writes performed at the artifact path together with
the error raised, if any. -/

inductive FsKind where
  | file
  | dir
  | other
deriving DecidableEq, Repr

def replace_artifact (children : List FsKind) : List FsKind × Option String :=
  match children with
  | [child] =>
    match child with
    | .dir => ([.dir], none)
    | .file => ([.file], none)
    | .other => ([], some "Unknown file type")
  | _ => ([], some "Payload directory should have exactly one child")

/-- C4: with exactly one `Payload` child the signed result replaces the
original artifact — a file is copied as a file and a directory as a
directory tree, with no error; with zero or two-or-more children a
structural error is raised and nothing is written to the artifact path. -/
theorem c4_payload_single_child :
    replace_artifact [FsKind.file] = ([FsKind.file], none) ∧
    replace_artifact [FsKind.dir] = ([FsKind.dir], none) ∧
    ∀ children : List FsKind, children.length ≠ 1 →
      replace_artifact children =
        ([], some "Payload directory should have exactly one child") := by
  refine ⟨rfl, rfl, ?_⟩
  intro children hlen
  match children with
  | [] => rfl
  | [c] => simp at hlen
  | a :: b :: rest => rfl

/-- Witness for `c4_payload_single_child`: the empty `Payload` directory and
a two-child `Payload` directory both raise the structural error without
writing, and the single-child cases replace the artifact. -/
theorem c4_payload_single_child_witness :
    replace_artifact [FsKind.file] = ([FsKind.file], none) ∧
      replace_artifact ([] : List FsKind) =
        ([], some "Payload directory should have exactly one child") ∧
      replace_artifact [FsKind.file, FsKind.file] =
        ([], some "Payload directory should have exactly one child") :=
  ⟨c4_payload_single_child.1,
    c4_payload_single_child.2.2 [] (by decide),
    c4_payload_single_child.2.2 [FsKind.file, FsKind.file] (by decide)⟩

/-! ## GpgSigner.clean (signing.py lines 358-360)

`clean` runs `shutil.rmtree(self.gpg_home, ignore_errors=True)`.
`rmtree` deletes the tree when it exists; on a missing path it raises
unless `ignore_errors` is set.  State is the existence of the keyring
directory; the result records whether an exception was raised and the
state afterwards. -/

def rmtree (ignore_errors dirExists : Bool) : Bool × Bool :=
  if dirExists then (false, false)
  else if ignore_errors then (false, false)
  else (true, false)

namespace GpgSigner

def clean (dirExists : Bool) : Bool × Bool :=
  rmtree true dirExists

end GpgSigner

/-- C10: `GpgSigner.clean` is total and idempotent: for any prior state of
the keyring directory (present or already absent) it raises no exception
and leaves the directory absent, and running it a second time on the
resulting state does exactly the same as running it once. -/
theorem c10_clean_total_idempotent :
    ∀ dirExists : Bool,
      GpgSigner.clean dirExists = (false, false) ∧
      GpgSigner.clean (GpgSigner.clean dirExists).2 = GpgSigner.clean dirExists := by
  decide

/-! ## SigningManifestBuilder (manifest.py, const.py)

`manifest` builds a nested Python dict.  JSON-like values are embedded as
an inductive type; a dict is an ordered list of key-value pairs (Python
dicts preserve insertion order, and `signing_args` /
`embedded_requirements` are inserted after the base keys).  Python
truthiness gates the two optional keys: `if entitlements:` and
`if embedded_requirements:` (so `None`, `False` and the empty list all
skip the key). -/

inductive JVal where
  | str : String → JVal
  | obj : List (String × JVal) → JVal
  | arr : List JVal → JVal

def APPLE_TEAM_ID : String := "94KV3E626L"

structure EmbeddedRequirement where
  path : String
  identifier : String
deriving DecidableEq, Repr

def truthyBool : Option Bool → Bool
  | none => false
  | some b => b

def truthyList : Option (List EmbeddedRequirement) → Bool
  | none => false
  | some l => !l.isEmpty

def manifest (name identifier : String) (entitlements : Option Bool)
    (embedded_requirements : Option (List EmbeddedRequirement)) : JVal :=
  let appBase : List (String × JVal) :=
    [("identifier", .str identifier),
     ("signing_requirements", .obj
       [("certificate_type", .str "developerIDAppDistribution"),
        ("app_id_prefix", .str APPLE_TEAM_ID)])]
  let app1 :=
    if truthyBool entitlements then
      appBase ++
        [("signing_args", .obj
          [("entitlements_path", .str "SIGNING_METADATA/entitlements.plist")])]
    else appBase
  let app2 :=
    if truthyList embedded_requirements then
      app1 ++
        [("embedded_requirements", .obj
          ((embedded_requirements.getD []).map fun req =>
            (req.path, JVal.obj [("identifier", .str req.identifier)])))]
    else app1
  .obj [("type", .str "app"), ("os", .str "osx"), ("name", .str name),
        ("outputs", .arr [.obj [("label", .str "macos"), ("path", .str name)]]),
        ("app", .obj app2)]

def app_manifest : JVal :=
  manifest "Amazon Q.app" "com.amazon.codewhisperer" (some true)
    (some [⟨"Contents/MacOS/q", "com.amazon.q"⟩,
           ⟨"Contents/MacOS/qterm", "com.amazon.qterm"⟩,
           ⟨"Contents/MacOS/qchat", "com.amazon.qchat"⟩])

def dmg_manifest (name : String) : JVal :=
  manifest name "com.amazon.codewhisperer.installer" none none

def ime_manifest : JVal :=
  manifest "CodeWhispererInputMethod.app" "com.amazon.inputmethod.codewhisperer" none none

/-- C8: for every name and identifier the manifest builder returns exactly
the payload `{type, os, name, outputs: [{label, path}], app: {identifier,
signing_requirements: {certificate_type, app_id_prefix}}}` and nothing
else; requesting entitlements adds exactly the key
`app.signing_args.entitlements_path`; the application-bundle manifest
additionally carries `app.embedded_requirements` mapping each of the three
enumerated embedded executables to its identifier. -/
theorem c8_manifest_shape :
    ∀ name identifier : String,
      manifest name identifier none none =
        JVal.obj
          [("type", .str "app"), ("os", .str "osx"), ("name", .str name),
           ("outputs", .arr [.obj [("label", .str "macos"), ("path", .str name)]]),
           ("app", .obj
             [("identifier", .str identifier),
              ("signing_requirements", .obj
                [("certificate_type", .str "developerIDAppDistribution"),
                 ("app_id_prefix", .str "94KV3E626L")])])] ∧
      manifest name identifier (some true) none =
        JVal.obj
          [("type", .str "app"), ("os", .str "osx"), ("name", .str name),
           ("outputs", .arr [.obj [("label", .str "macos"), ("path", .str name)]]),
           ("app", .obj
             [("identifier", .str identifier),
              ("signing_requirements", .obj
                [("certificate_type", .str "developerIDAppDistribution"),
                 ("app_id_prefix", .str "94KV3E626L")]),
              ("signing_args", .obj
                [("entitlements_path", .str "SIGNING_METADATA/entitlements.plist")])])] ∧
      app_manifest =
        JVal.obj
          [("type", .str "app"), ("os", .str "osx"), ("name", .str "Amazon Q.app"),
           ("outputs", .arr
             [.obj [("label", .str "macos"), ("path", .str "Amazon Q.app")]]),
           ("app", .obj
             [("identifier", .str "com.amazon.codewhisperer"),
              ("signing_requirements", .obj
                [("certificate_type", .str "developerIDAppDistribution"),
                 ("app_id_prefix", .str "94KV3E626L")]),
              ("signing_args", .obj
                [("entitlements_path", .str "SIGNING_METADATA/entitlements.plist")]),
              ("embedded_requirements", .obj
                [("Contents/MacOS/q", .obj [("identifier", .str "com.amazon.q")]),
                 ("Contents/MacOS/qterm", .obj [("identifier", .str "com.amazon.qterm")]),
                 ("Contents/MacOS/qchat", .obj
                   [("identifier", .str "com.amazon.qchat")])])])] := by
  intro name identifier
  exact ⟨rfl, rfl, rfl⟩

/-! ## build_linux_minimal (build.py lines 431-464)

After `signer = load_gpg_signer()` the function runs, in order: build
tar.gz (external command), write its sha256, gpg-sign it (only when a
signer is configured); the same triple for tar.xz, tar.zst and zip; then
`shutil.rmtree(archive_path)`; and finally `signer.clean()` — with no
try/finally anywhere.  `GpgSigner.__init__` creates the keyring
directory, so it exists from the moment `load_gpg_signer` returns a
signer.  Each fallible step consumes one entry of `fails` (True = the
step raises); an exception propagates immediately.  The result is
(exception raised?, keyring directory exists afterwards?). -/

inductive LinuxStep where
  | cmd
  | sha
  | sign
  | rmtreeArchive
  | cleanGpg
deriving DecidableEq, Repr

def build_linux_minimal_steps (signer : Bool) : List LinuxStep :=
  let signStep : List LinuxStep := if signer then [.sign] else []
  ([.cmd, .sha] ++ signStep) ++ ([.cmd, .sha] ++ signStep) ++
    ([.cmd, .sha] ++ signStep) ++ ([.cmd, .sha] ++ signStep) ++
    [.rmtreeArchive] ++ (if signer then [.cleanGpg] else [])

def run_linux_steps : List LinuxStep → List Bool → Bool → Bool × Bool
  | [], _, dirExists => (false, dirExists)
  | step :: rest, fails, dirExists =>
    match step with
    | .cleanGpg => run_linux_steps rest fails.tail false
    | _ =>
      if fails.headD false then (true, dirExists)
      else run_linux_steps rest fails.tail dirExists

def build_linux_minimal (signer : Bool) (fails : List Bool) : Bool × Bool :=
  run_linux_steps (build_linux_minimal_steps signer) fails signer

/-- Does the remaining step list still contain the `clean` call? -/
def hasCleanStep : List LinuxStep → Bool
  | [] => false
  | .cleanGpg :: _ => true
  | _ :: rest => hasCleanStep rest

theorem all_false_head_tail (fails : List Bool)
    (h : fails.all (fun b => !b) = true) :
    fails.headD false = false ∧ fails.tail.all (fun b => !b) = true := by
  cases fails with
  | nil => exact ⟨rfl, rfl⟩
  | cons b bs =>
    simp only [List.all_cons, Bool.and_eq_true, Bool.not_eq_true'] at h
    simp [h.1, h.2]

theorem run_linux_steps_no_fail :
    ∀ (steps : List LinuxStep) (fails : List Bool) (dirExists : Bool),
      fails.all (fun b => !b) = true →
      run_linux_steps steps fails dirExists =
        (false, if hasCleanStep steps then false else dirExists) := by
  intro steps
  induction steps with
  | nil => intro fails dirExists _; simp [run_linux_steps, hasCleanStep]
  | cons step rest ih =>
    intro fails dirExists hf
    obtain ⟨h1, h2⟩ := all_false_head_tail fails hf
    cases step with
    | cleanGpg =>
      rw [show run_linux_steps (LinuxStep.cleanGpg :: rest) fails dirExists =
          run_linux_steps rest fails.tail false from rfl]
      rw [ih fails.tail false h2]
      simp [hasCleanStep]
    | cmd =>
      rw [show run_linux_steps (LinuxStep.cmd :: rest) fails dirExists =
          if fails.headD false then (true, dirExists)
          else run_linux_steps rest fails.tail dirExists from rfl]
      rw [h1, if_neg (by simp), ih fails.tail dirExists h2]
      simp [hasCleanStep]
    | sha =>
      rw [show run_linux_steps (LinuxStep.sha :: rest) fails dirExists =
          if fails.headD false then (true, dirExists)
          else run_linux_steps rest fails.tail dirExists from rfl]
      rw [h1, if_neg (by simp), ih fails.tail dirExists h2]
      simp [hasCleanStep]
    | sign =>
      rw [show run_linux_steps (LinuxStep.sign :: rest) fails dirExists =
          if fails.headD false then (true, dirExists)
          else run_linux_steps rest fails.tail dirExists from rfl]
      rw [h1, if_neg (by simp), ih fails.tail dirExists h2]
      simp [hasCleanStep]
    | rmtreeArchive =>
      rw [show run_linux_steps (LinuxStep.rmtreeArchive :: rest) fails dirExists =
          if fails.headD false then (true, dirExists)
          else run_linux_steps rest fails.tail dirExists from rfl]
      rw [h1, if_neg (by simp), ih fails.tail dirExists h2]
      simp [hasCleanStep]

theorem run_linux_steps_first_fail :
    ∀ (pre : List LinuxStep) (s : LinuxStep) (post : List LinuxStep)
      (rest : List Bool) (dirExists : Bool),
      s ≠ LinuxStep.cleanGpg → hasCleanStep pre = false →
      run_linux_steps (pre ++ s :: post)
        (List.replicate pre.length false ++ true :: rest) dirExists =
        (true, dirExists) := by
  intro pre
  induction pre with
  | nil =>
    intro s post rest dirExists hs _
    cases s with
    | cleanGpg => exact absurd rfl hs
    | cmd => rfl
    | sha => rfl
    | sign => rfl
    | rmtreeArchive => rfl
  | cons p pre' ih =>
    intro s post rest dirExists hs hclean
    cases p with
    | cleanGpg => simp [hasCleanStep] at hclean
    | cmd =>
      rw [show hasCleanStep (LinuxStep.cmd :: pre') = hasCleanStep pre' from rfl] at hclean
      simpa [run_linux_steps, List.replicate] using ih s post rest dirExists hs hclean
    | sha =>
      rw [show hasCleanStep (LinuxStep.sha :: pre') = hasCleanStep pre' from rfl] at hclean
      simpa [run_linux_steps, List.replicate] using ih s post rest dirExists hs hclean
    | sign =>
      rw [show hasCleanStep (LinuxStep.sign :: pre') = hasCleanStep pre' from rfl] at hclean
      simpa [run_linux_steps, List.replicate] using ih s post rest dirExists hs hclean
    | rmtreeArchive =>
      rw [show hasCleanStep (LinuxStep.rmtreeArchive :: pre') = hasCleanStep pre' from rfl]
        at hclean
      simpa [run_linux_steps, List.replicate] using ih s post rest dirExists hs hclean

/-- C5 counterexample: with a GPG signer configured, when `sign_file` for
the first archive raises (third step: tar.gz command and its sha succeed,
the gpg signing step fails), `build_linux_minimal` propagates the
exception and the keyring directory still exists — and likewise when the
very first tar command raises, before `sign_file` was ever called.  The
claimed "directory no longer exists on every exit path" is false. -/
theorem c5_counterexample :
    build_linux_minimal true [false, false, true] = (true, true) ∧
      build_linux_minimal true [true] = (true, true) := by
  constructor
  · decide
  · decide

/-- C5 (amended): the keyring directory is removed only on the fully
successful path: when no step raises, `build_linux_minimal` completes
without exception and the directory is gone (also when no signer is
configured, in which case it never existed); but when any archiving or
signing step before the final `clean` raises, the exception propagates
out of `build_linux_minimal` and the keyring directory still exists. -/
theorem c5_gpg_cleanup :
    (∀ fails : List Bool, fails.all (fun b => !b) = true →
      build_linux_minimal true fails = (false, false) ∧
      build_linux_minimal false fails = (false, false)) ∧
    (∀ (pre : List LinuxStep) (s : LinuxStep) (post : List LinuxStep) (rest : List Bool),
      build_linux_minimal_steps true = pre ++ s :: post →
      s ≠ LinuxStep.cleanGpg →
      hasCleanStep pre = false →
      build_linux_minimal true (List.replicate pre.length false ++ true :: rest) =
        (true, true)) := by
  constructor
  · intro fails hf
    constructor
    · rw [build_linux_minimal, run_linux_steps_no_fail _ _ _ hf]
      simp [build_linux_minimal_steps, hasCleanStep]
    · rw [build_linux_minimal, run_linux_steps_no_fail _ _ _ hf]
      simp [build_linux_minimal_steps, hasCleanStep]
  · intro pre s post rest hsplit hs hclean
    rw [build_linux_minimal, hsplit]
    exact run_linux_steps_first_fail pre s post rest true hs hclean

/-- Witness for `c5_gpg_cleanup`: an all-successful run removes the
directory; a run failing at the first gpg signing step (two clean steps of
prefix) leaves it in place. -/
theorem c5_gpg_cleanup_witness :
    (build_linux_minimal true [] = (false, false) ∧
      build_linux_minimal false [] = (false, false)) ∧
      build_linux_minimal true
          (List.replicate ([LinuxStep.cmd, LinuxStep.sha] : List LinuxStep).length false ++
            true :: []) = (true, true) := by
  constructor
  · exact c5_gpg_cleanup.1 [] rfl
  · exact c5_gpg_cleanup.2 [.cmd, .sha] .sign
      ([.cmd, .sha, .sign, .cmd, .sha, .sign, .cmd, .sha, .sign, .rmtreeArchive,
        .cleanGpg]) [] (by decide) (by decide) (by decide)

/-! ## apple_notarize_file, .app case (signing.py lines 251-296)

For a directory-style `.app` artifact the function runs, in order:
`syspolicy_check notary-submission` (invoked with `check=False`, so its
failure is logged, never raised), `ditto` to create the zip, the secrets
manager lookup, `xcrun notarytool submit --wait`, `xcrun stapler staple`,
`spctl -a -v`, then `Path(zip).unlink()`, then `syspolicy_check
distribution` (again `check=False`).  There is no try/finally: the unlink
runs only after the staple and verification steps succeed.  Each step
consumes one entry of `fails`; the result is (exception raised?, zip
still on disk?). -/

inductive NotarizeStep where
  | syspolicyCheck
  | dittoZip
  | getSecret
  | submit
  | staple
  | spctl
  | unlinkZip
deriving DecidableEq, Repr

def apple_notarize_app_steps : List NotarizeStep :=
  [.syspolicyCheck, .dittoZip, .getSecret, .submit, .staple, .spctl,
   .unlinkZip, .syspolicyCheck]

def run_notarize : List NotarizeStep → List Bool → Bool → Bool × Bool
  | [], _, zipExists => (false, zipExists)
  | step :: rest, fails, zipExists =>
    match step with
    | .syspolicyCheck => run_notarize rest fails.tail zipExists
    | .dittoZip =>
      if fails.headD false then (true, zipExists)
      else run_notarize rest fails.tail true
    | .unlinkZip =>
      if fails.headD false then (true, zipExists)
      else run_notarize rest fails.tail false
    | _ =>
      if fails.headD false then (true, zipExists)
      else run_notarize rest fails.tail zipExists

def apple_notarize_file (fails : List Bool) : Bool × Bool :=
  run_notarize apple_notarize_app_steps fails false

/-- C6 counterexample: when the notarytool submission (4th step) raises —
syspolicy check, ditto and the secret lookup having succeeded — the
exception propagates and the zip is still on disk; likewise when stapling
or verification fails.  The claimed "zip is deleted after submission
regardless of the submission's outcome" is false. -/
theorem c6_counterexample :
    apple_notarize_file [false, false, false, true] = (true, true) ∧
      apple_notarize_file [false, false, false, false, true] = (true, true) ∧
      apple_notarize_file [false, false, false, false, false, true] = (true, true) := by
  refine ⟨?_, ?_, ?_⟩ <;> decide

/-- C6 (amended): the notarization zip is deleted only on the fully
successful path: when every step succeeds, `apple_notarize_file` returns
without exception and the zip is gone; when the secret lookup, the
submission, the stapling or the verification step raises (the zip having
been created by ditto), the exception propagates and the zip remains on
disk; when ditto itself raises, no zip was created. -/
theorem c6_zip_cleanup :
    (∀ fails : List Bool, fails.all (fun b => !b) = true →
      apple_notarize_file fails = (false, false)) ∧
    (∀ (k : Nat) (rest : List Bool), 2 ≤ k → k ≤ 5 →
      apple_notarize_file (List.replicate k false ++ true :: rest) = (true, true)) ∧
    (∀ rest : List Bool,
      apple_notarize_file (false :: true :: rest) = (true, false)) := by
  refine ⟨?_, ?_, ?_⟩
  · intro fails hf
    obtain ⟨h0, hf⟩ := all_false_head_tail fails hf
    obtain ⟨h1, hf⟩ := all_false_head_tail _ hf
    obtain ⟨h2, hf⟩ := all_false_head_tail _ hf
    obtain ⟨h3, hf⟩ := all_false_head_tail _ hf
    obtain ⟨h4, hf⟩ := all_false_head_tail _ hf
    obtain ⟨h5, hf⟩ := all_false_head_tail _ hf
    obtain ⟨h6, hf⟩ := all_false_head_tail _ hf
    simp at h0 h1 h2 h3 h4 h5 h6
    simp [apple_notarize_file, apple_notarize_app_steps, run_notarize,
      h0, h1, h2, h3, h4, h5, h6]
  · intro k rest h2 h5
    interval_cases k <;>
      simp [apple_notarize_file, apple_notarize_app_steps, run_notarize, List.replicate]
  · intro rest
    simp [apple_notarize_file, apple_notarize_app_steps, run_notarize]

/-- Witness for `c6_zip_cleanup`: an all-successful run leaves no zip; a
failing submission (k = 3) leaves the zip; a failing ditto creates none. -/
theorem c6_zip_cleanup_witness :
    apple_notarize_file [] = (false, false) ∧
      apple_notarize_file (List.replicate 3 false ++ true :: []) = (true, true) ∧
      apple_notarize_file (false :: true :: []) = (true, false) :=
  ⟨c6_zip_cleanup.1 [] rfl,
    c6_zip_cleanup.2.1 3 [] (by decide) (by decide),
    c6_zip_cleanup.2.2 []⟩

/-! ## build credential gate and macOS pipeline (build.py lines 776-900)

`build` constructs a `CdSigningData` only when all four credential
parameters are truthy (Python truthiness: `None` and the empty string are
falsy), and otherwise silently sets `signing_data = None`; missing
credentials never raise.  The Darwin branch then runs `build_macos_ime`
(whose signing sub-steps are gated on `signing_data`),
`build_macos_desktop_app` (gated `sign_and_rebundle_macos`) and
`generate_sha`.  The pipeline is embedded as the ordered list of actions
performed; signing-service calls (`cd_sign_file`, `apple_notarize_file`)
appear in the list only when a signing configuration exists. -/

inductive CdSigningType where
  | dmg
  | app
  | ime
deriving DecidableEq, Repr

structure CdSigningData where
  bucket_name : String
  notarizing_secret_id : String
  aws_account_id : String
  signing_role_name : String
deriving DecidableEq, Repr

def pyTruthy : Option String → Bool
  | none => false
  | some s => !s.isEmpty

def build_signing_data
    (signing_bucket aws_account_id apple_id_secret signing_role_name : Option String) :
    Option CdSigningData :=
  if pyTruthy signing_bucket && pyTruthy aws_account_id && pyTruthy apple_id_secret &&
      pyTruthy signing_role_name then
    some ⟨signing_bucket.getD "", apple_id_secret.getD "", aws_account_id.getD "",
      signing_role_name.getD ""⟩
  else none

inductive BuildAction where
  | buildIme
  | buildAppBundle
  | buildDmg
  | cdSignFile : CdSigningType → BuildAction
  | notarizeFile
  | rebundleDmg
  | genSha
deriving DecidableEq, Repr

def build_macos_ime (signing_data : Option CdSigningData) : List BuildAction :=
  [.buildIme] ++
    match signing_data with
    | some _ => [.cdSignFile .ime, .notarizeFile]
    | none => []

def sign_and_rebundle_macos : List BuildAction :=
  [.cdSignFile .app, .notarizeFile, .rebundleDmg, .cdSignFile .dmg, .notarizeFile]

def build_macos_desktop_app (signing_data : Option CdSigningData) : List BuildAction :=
  build_macos_ime signing_data ++ [.buildAppBundle, .buildDmg] ++
    match signing_data with
    | some _ => sign_and_rebundle_macos
    | none => []

def build_darwin (signing_data : Option CdSigningData) : List BuildAction :=
  build_macos_desktop_app signing_data ++ [.genSha]

/-- `build` (Darwin branch): compute the signing gate, validate the stage
name (unknown stage names raise `ValueError`), then run the pipeline. -/
def build (signing_bucket aws_account_id apple_id_secret signing_role_name
    stage_name : Option String) : Except String (List BuildAction) :=
  let signing_data :=
    build_signing_data signing_bucket aws_account_id apple_id_secret signing_role_name
  match stage_name with
  | none => .ok (build_darwin signing_data)
  | some "prod" => .ok (build_darwin signing_data)
  | some "gamma" => .ok (build_darwin signing_data)
  | some s => .error ("Unknown stage name: " ++ s)

def isSigningCall : BuildAction → Bool
  | .cdSignFile _ => true
  | .notarizeFile => true
  | _ => false

/-- C7: whenever at least one remote-signing credential is absent (falsy),
`build` constructs no signing configuration, raises no error on account of
the missing credentials (any valid stage name still yields a result),
performs no signing-service calls, and still produces the dmg artifact and
its checksum file. -/
theorem c7_missing_creds_disable_signing :
    ∀ sb aid sec role stage : Option String,
      (pyTruthy sb = false ∨ pyTruthy aid = false ∨ pyTruthy sec = false ∨
        pyTruthy role = false) →
      (stage = none ∨ stage = some "prod" ∨ stage = some "gamma") →
      build_signing_data sb aid sec role = none ∧
      build sb aid sec role stage = .ok (build_darwin none) ∧
      (build_darwin none).all (fun a => !isSigningCall a) = true ∧
      BuildAction.buildDmg ∈ build_darwin none ∧
      BuildAction.genSha ∈ build_darwin none := by
  intro sb aid sec role stage hcred hstage
  have hc : (pyTruthy sb && pyTruthy aid && pyTruthy sec && pyTruthy role) = false := by
    rcases hcred with h | h | h | h <;> simp [h]
  have hnone : build_signing_data sb aid sec role = none := by
    rw [build_signing_data, if_neg (by simp [hc])]
  refine ⟨hnone, ?_, by decide, by decide, by decide⟩
  rcases hstage with h | h | h <;> subst h <;> simp [build, hnone]

/-- Witness for `c7_missing_creds_disable_signing`: all credentials absent
and no stage name set: no signing configuration, a successful unsigned
pipeline containing the dmg and checksum steps and no signing calls. -/
theorem c7_missing_creds_disable_signing_witness :
    build_signing_data none none none none = none ∧
      build none none none none none = .ok (build_darwin none) ∧
      (build_darwin none).all (fun a => !isSigningCall a) = true ∧
      BuildAction.buildDmg ∈ build_darwin none ∧
      BuildAction.genSha ∈ build_darwin none :=
  c7_missing_creds_disable_signing none none none none none (Or.inl rfl) (Or.inl rfl)
